import Mathlib

/-!
Shallow embedding of `src/main.py` (csv_generator): the record validators
(`_collect_student_input`, `_collect_prof_input`), the CSV codec
(`_write_csv`, `_load_csv_data`), the record store mutations
(`save_student_entry`, `save_prof_entry`, `import_student_csv`), and the
time-range drag-selection dialog (`TimeRangeDialog`).

Python `str`s are modelled as Lean `String`s; Python `int`s as `Int`;
`datetime` values as a record of (year, month, day, hour, minute);
exceptions as `Except String`; a CSV file as its list of rows of cells
(the cell-level contract of Python's `csv` module).
-/

namespace CsvGen

/-! ### Python string stripping (`str.strip()` on ASCII whitespace) -/

def isPySpace (c : Char) : Bool :=
  c = ' ' || c = '\t' || c = '\n' || c = '\r' || c = '\x0b' || c = '\x0c'

def dropWS : List Char → List Char
  | [] => []
  | c :: rest => if isPySpace c then dropWS rest else c :: rest

def pstripList (l : List Char) : List Char :=
  (dropWS ((dropWS l).reverse)).reverse

def pstrip (s : String) : String :=
  ⟨pstripList s.data⟩

/-! ### Decimal digits -/

/-- Membership of `c` in the character range `[lo, hi]` (code-point order). -/
def chBetween (lo hi c : Char) : Bool := lo.toNat ≤ c.toNat && c.toNat ≤ hi.toNat

def digitVal (c : Char) : Option Nat :=
  if chBetween '0' '9' c then some (c.toNat - 48) else none

def digitChar : Nat → Char
  | 0 => '0' | 1 => '1' | 2 => '2' | 3 => '3' | 4 => '4'
  | 5 => '5' | 6 => '6' | 7 => '7' | 8 => '8' | _ => '9'

def isDigitCh (c : Char) : Bool := chBetween '0' '9' c

/-- `"{:02d}".format n` / `%02d` for `n ≤ 99`. -/
def pad2 (n : Nat) : List Char := [digitChar (n / 10), digitChar (n % 10)]

/-- `%Y` zero-padded to four digits, for `n ≤ 9999`. -/
def pad4 (n : Nat) : List Char :=
  [digitChar (n / 1000), digitChar (n / 100 % 10), digitChar (n / 10 % 10), digitChar (n % 10)]

/-! ### Python `int(str)` (base 10, ASCII digits, underscores between digits) -/

def pyDigitsAux : Nat → List Char → Option Nat
  | acc, [] => some acc
  | acc, '_' :: c :: rest =>
    if isDigitCh c then pyDigitsAux (acc * 10 + (c.toNat - 48)) rest else none
  | acc, c :: rest =>
    if isDigitCh c then pyDigitsAux (acc * 10 + (c.toNat - 48)) rest else none

def pyDigits : List Char → Option Nat
  | c :: rest => if isDigitCh c then pyDigitsAux (c.toNat - 48) rest else none
  | [] => none

def pyInt (s : String) : Option Int :=
  match pstripList s.data with
  | '+' :: rest => (pyDigits rest).map (fun n => (n : Int))
  | '-' :: rest => (pyDigits rest).map (fun n => -(n : Int))
  | rest => (pyDigits rest).map (fun n => (n : Int))

/-! ### `datetime` -/

structure PyDateTime where
  year : Nat
  month : Nat
  day : Nat
  hour : Nat
  minute : Nat
deriving DecidableEq, Repr

def isLeap (y : Nat) : Bool := y % 4 = 0 && (y % 100 ≠ 0 || y % 400 = 0)

def daysInMonth (y m : Nat) : Nat :=
  if m = 2 then (if isLeap y then 29 else 28)
  else if m = 4 ∨ m = 6 ∨ m = 9 ∨ m = 11 then 30
  else 31

/-- `datetime.__le__`: lexicographic on (year, month, day, hour, minute). -/
def PyDateTime.leB (a b : PyDateTime) : Bool :=
  if a.year ≠ b.year then decide (a.year < b.year)
  else if a.month ≠ b.month then decide (a.month < b.month)
  else if a.day ≠ b.day then decide (a.day < b.day)
  else if a.hour ≠ b.hour then decide (a.hour < b.hour)
  else decide (a.minute ≤ b.minute)

/-- `.date()` equality. -/
def PyDateTime.sameDate (a b : PyDateTime) : Bool :=
  a.year == b.year && a.month == b.month && a.day == b.day

/-! ### `strptime` component parsers.

CPython's `_strptime` compiles `%Y` to `\d{4}`, `%m` to `1[0-2]|0[1-9]|[1-9]`,
`%d` to `3[01]|[12]\d|0[1-9]|[1-9]`, `%H` to `2[0-3]|[0-1]\d|\d`,
`%M` to `[0-5]\d|\d`, matched in alternation order against the input, and
rewrites whitespace in the format to `\s+`; the separators that follow each
field (`-`, `:`, whitespace) are never digits, so ordered first-match
without backtracking is equivalent to the regex semantics. -/

def parseYear : List Char → Option (Nat × List Char)
  | a :: b :: c :: d :: rest =>
    match digitVal a, digitVal b, digitVal c, digitVal d with
    | some x, some y, some z, some w => some (1000 * x + 100 * y + 10 * z + w, rest)
    | _, _, _, _ => none
  | _ => none

def parseMonth : List Char → Option (Nat × List Char)
  | [] => none
  | [a] => if chBetween '1' '9' a then some (a.toNat - 48, []) else none
  | a :: b :: rest =>
    if a = '1' && chBetween '0' '2' b then some (10 + (b.toNat - 48), rest)
    else if a = '0' && chBetween '1' '9' b then some (b.toNat - 48, rest)
    else if chBetween '1' '9' a then some (a.toNat - 48, b :: rest)
    else none

def parseDay : List Char → Option (Nat × List Char)
  | [] => none
  | [a] => if chBetween '1' '9' a then some (a.toNat - 48, []) else none
  | a :: b :: rest =>
    if a = '3' && chBetween '0' '1' b then some (30 + (b.toNat - 48), rest)
    else if chBetween '1' '2' a && isDigitCh b then
      some (10 * (a.toNat - 48) + (b.toNat - 48), rest)
    else if a = '0' && chBetween '1' '9' b then some (b.toNat - 48, rest)
    else if chBetween '1' '9' a then some (a.toNat - 48, b :: rest)
    else none

def parseHour : List Char → Option (Nat × List Char)
  | [] => none
  | [a] => if isDigitCh a then some (a.toNat - 48, []) else none
  | a :: b :: rest =>
    if a = '2' && chBetween '0' '3' b then some (20 + (b.toNat - 48), rest)
    else if chBetween '0' '1' a && isDigitCh b then
      some (10 * (a.toNat - 48) + (b.toNat - 48), rest)
    else if isDigitCh a then some (a.toNat - 48, b :: rest)
    else none

def parseMinute : List Char → Option (Nat × List Char)
  | [] => none
  | [a] => if isDigitCh a then some (a.toNat - 48, []) else none
  | a :: b :: rest =>
    if chBetween '0' '5' a && isDigitCh b then
      some (10 * (a.toNat - 48) + (b.toNat - 48), rest)
    else if isDigitCh a then some (a.toNat - 48, b :: rest)
    else none

def expectCh (c : Char) : List Char → Option (List Char)
  | d :: rest => if d = c then some rest else none
  | [] => none

/-- CPython's `_strptime` rewrites any whitespace run in the format string to
`\s+`, so the space in `"%Y-%m-%d %H:%M"` matches **one or more** whitespace
characters (ASCII here, matching the rest of the embedding). Greedily
consuming the whole run is exact: the field that follows starts with a
digit, which is never whitespace. -/
def expectWS : List Char → Option (List Char)
  | c :: rest => if isPySpace c then some (dropWS rest) else none
  | [] => none

/-- The `datetime` constructor's range checks reachable after the regex match:
`MINYEAR = 1 ≤ year` (the four-digit match bounds it by 9999) and
`day ≤ days in month` (the regex already bounds month to 1..12, day ≥ 1,
hour ≤ 23, minute ≤ 59). -/
def dtCtorOk (y mo d : Nat) : Bool := 1 ≤ y && d ≤ daysInMonth y mo

def parseDTChars (l : List Char) : Option PyDateTime :=
  match parseYear l with
  | none => none
  | some (y, l) =>
    match expectCh '-' l with
    | none => none
    | some l =>
      match parseMonth l with
      | none => none
      | some (mo, l) =>
        match expectCh '-' l with
        | none => none
        | some l =>
          match parseDay l with
          | none => none
          | some (d, l) =>
            match expectWS l with
            | none => none
            | some l =>
              match parseHour l with
              | none => none
              | some (h, l) =>
                match expectCh ':' l with
                | none => none
                | some l =>
                  match parseMinute l with
                  | none => none
                  | some (mi, l) =>
                    if l = [] && dtCtorOk y mo d then
                      some ⟨y, mo, d, h, mi⟩
                    else none

/-- `parse_time`: `datetime.strptime(value.strip(), "%Y-%m-%d %H:%M")`,
`none` standing for the raised `ValueError`. -/
def parse_time (value : String) : Option PyDateTime :=
  parseDTChars (pstripList value.data)

def parseDateChars (l : List Char) : Option PyDateTime :=
  match parseYear l with
  | none => none
  | some (y, l) =>
    match expectCh '-' l with
    | none => none
    | some l =>
      match parseMonth l with
      | none => none
      | some (mo, l) =>
        match expectCh '-' l with
        | none => none
        | some l =>
          match parseDay l with
          | none => none
          | some (d, l) =>
            if l = [] && dtCtorOk y mo d then some ⟨y, mo, d, 0, 0⟩ else none

/-- `parse_date`: `datetime.strptime(value.strip(), "%Y-%m-%d")`. -/
def parse_date (value : String) : Option PyDateTime :=
  parseDateChars (pstripList value.data)

/-! ### `strftime` formatters -/

/-- `dt.strftime("%Y-%m-%d %H:%M")` (year rendered zero-padded to 4). -/
def formatDT (dt : PyDateTime) : String :=
  ⟨pad4 dt.year ++ '-' :: pad2 dt.month ++ '-' :: pad2 dt.day ++
    ' ' :: pad2 dt.hour ++ ':' :: pad2 dt.minute⟩

/-- `dt.strftime("%Y-%m-%d")`. -/
def formatDate (dt : PyDateTime) : String :=
  ⟨pad4 dt.year ++ '-' :: pad2 dt.month ++ '-' :: pad2 dt.day⟩

/-- `dt.strftime("%H:%M")`. -/
def formatClock (dt : PyDateTime) : String :=
  ⟨pad2 dt.hour ++ ':' :: pad2 dt.minute⟩

/-! ### Field validators -/

/-- `validate_weekday`: `int(value)` (a `ValueError` on an unparseable
literal), then the 1..7 range check. -/
def validate_weekday (value : String) : Except String Int :=
  match pyInt value with
  | none => .error ("invalid literal for int() with base 10: " ++ value)
  | some weekday =>
    if weekday < 1 ∨ weekday > 7 then .error "Weekday 必须在 1-7 之间"
    else .ok weekday

/-- The body of `re.match(r"^[^@\s]+@[^@\s]+\.[^@\s]+$", value)` after the
first `@` (matched `@` is necessarily the first, since `[^@\s]` excludes
`@`): no `@` or whitespace anywhere, and a `.` that is neither the first
nor the last character. -/
def emailTail (l : List Char) : Bool :=
  l.all (fun c => c ≠ '@' && !isPySpace c) && ((l.drop 1).dropLast.contains '.')

def emailLocal (l : List Char) : Bool :=
  !l.isEmpty && l.all (fun c => !isPySpace c)

def emailCore (l : List Char) : Bool :=
  let local_ := l.takeWhile (fun c => c ≠ '@')
  let rest := l.dropWhile (fun c => c ≠ '@')
  match rest with
  | '@' :: tl => emailLocal local_ && emailTail tl
  | _ => false

/-- `re.match(r"^[^@\s]+@[^@\s]+\.[^@\s]+$", value)`: `$` also matches just
before a single trailing newline. -/
def emailMatch (value : String) : Bool :=
  emailCore value.data ||
    (value.data.getLast? = some '\n' && emailCore value.data.dropLast)

/-- `validate_email`. -/
def validate_email (value : String) : Except String String :=
  if emailMatch value then .ok value else .error "请输入合法的邮箱地址"

/-! ### Records and the two validators -/

def STUDENT_COLUMNS : List String :=
  ["EventName", "Location", "Description", "Weekday", "StartTime", "EndTime", "IsCourse"]

def PROFESSOR_COLUMNS : List String :=
  ["ProfessorName", "Email", "EventName", "Location", "Description", "Weekday", "StartTime", "EndTime"]

/-- The raw form state read by `_collect_student_input`: the six string
variables plus the `IntVar` behind the IsCourse checkbutton. -/
structure RawStudent where
  eventName : String
  location : String
  description : String
  weekday : String
  startTime : String
  endTime : String
  isCourse : Int
deriving DecidableEq, Repr

/-- The dict `_collect_student_input` returns (all values strings). -/
structure StudentRecord where
  eventName : String
  location : String
  description : String
  weekday : String
  startTime : String
  endTime : String
  isCourse : String
deriving DecidableEq, Repr

structure RawProf where
  professorName : String
  email : String
  eventName : String
  location : String
  description : String
  weekday : String
  startTime : String
  endTime : String
deriving DecidableEq, Repr

structure ProfRecord where
  professorName : String
  email : String
  eventName : String
  location : String
  description : String
  weekday : String
  startTime : String
  endTime : String
deriving DecidableEq, Repr

def timeFormatError : String := "时间格式应为 %Y-%m-%d %H:%M"

/-- `CSVApp._collect_student_input`: strips every string variable, checks the
required fields in list order (`str(values[field]).strip()` strips again),
then weekday, StartTime, EndTime, same-date, end-after-start, IsCourse, and
builds the normalized dict. -/
def collect_student_input (raw : RawStudent) : Except String StudentRecord :=
  let vEvent := pstrip raw.eventName
  let vLoc := pstrip raw.location
  let vDesc := pstrip raw.description
  let vWeek := pstrip raw.weekday
  let vStart := pstrip raw.startTime
  let vEnd := pstrip raw.endTime
  if pstrip vEvent = "" then .error "EventName 为必填项"
  else if pstrip vLoc = "" then .error "Location 为必填项"
  else if pstrip vWeek = "" then .error "Weekday 为必填项"
  else if pstrip vStart = "" then .error "StartTime 为必填项"
  else if pstrip vEnd = "" then .error "EndTime 为必填项"
  else
    match validate_weekday vWeek with
    | .error e => .error e
    | .ok weekday =>
      match parse_time vStart with
      | none => .error timeFormatError
      | some start_dt =>
        match parse_time vEnd with
        | none => .error timeFormatError
        | some end_dt =>
          if ¬ start_dt.sameDate end_dt then .error "开始时间和结束时间必须在同一天"
          else if end_dt.leB start_dt then .error "结束时间必须大于开始时间"
          else
            let is_course_val := raw.isCourse
            if is_course_val ≠ 0 ∧ is_course_val ≠ 1 then .error "IsCourse 只能为 0 或 1"
            else .ok
              { eventName := vEvent
                location := vLoc
                description := vDesc
                weekday := toString weekday
                startTime := formatDT start_dt
                endTime := formatDT end_dt
                isCourse := toString is_course_val }

/-- `CSVApp._collect_prof_input`: strips all variables, required fields in
list order, then **email first**, then weekday, the date-times, same-date
and end-after-start. -/
def collect_prof_input (raw : RawProf) : Except String ProfRecord :=
  let vName := pstrip raw.professorName
  let vEmail := pstrip raw.email
  let vEvent := pstrip raw.eventName
  let vLoc := pstrip raw.location
  let vDesc := pstrip raw.description
  let vWeek := pstrip raw.weekday
  let vStart := pstrip raw.startTime
  let vEnd := pstrip raw.endTime
  if vName = "" then .error "ProfessorName 为必填项"
  else if vEmail = "" then .error "Email 为必填项"
  else if vEvent = "" then .error "EventName 为必填项"
  else if vLoc = "" then .error "Location 为必填项"
  else if vWeek = "" then .error "Weekday 为必填项"
  else if vStart = "" then .error "StartTime 为必填项"
  else if vEnd = "" then .error "EndTime 为必填项"
  else
    match validate_email vEmail with
    | .error e => .error e
    | .ok _ =>
      match validate_weekday vWeek with
      | .error e => .error e
      | .ok weekday =>
        match parse_time vStart with
        | none => .error timeFormatError
        | some start_dt =>
          match parse_time vEnd with
          | none => .error timeFormatError
          | some end_dt =>
            if ¬ start_dt.sameDate end_dt then .error "开始时间和结束时间必须在同一天"
            else if end_dt.leB start_dt then .error "结束时间必须大于开始时间"
            else .ok
              { professorName := vName
                email := vEmail
                eventName := vEvent
                location := vLoc
                description := vDesc
                weekday := toString weekday
                startTime := formatDT start_dt
                endTime := formatDT end_dt }

/-- Re-reading a stored record's own fields as raw form input, the IsCourse
string going back through the `IntVar` as the integer it denotes. -/
def StudentRecord.toRaw (r : StudentRecord) : RawStudent :=
  { eventName := r.eventName
    location := r.location
    description := r.description
    weekday := r.weekday
    startTime := r.startTime
    endTime := r.endTime
    isCourse := (pyInt r.isCourse).getD 0 }

def ProfRecord.toRaw (r : ProfRecord) : RawProf :=
  { professorName := r.professorName
    email := r.email
    eventName := r.eventName
    location := r.location
    description := r.description
    weekday := r.weekday
    startTime := r.startTime
    endTime := r.endTime }

/-! ### CSV codec.

A CSV file is modelled as its list of rows of cells, the cell-level
round-trip contract of Python's `csv` module; `DictWriter.writerow` emits
the dict's values in `fieldnames` order and `DictReader` rebuilds a dict
by `dict(zip(fieldnames, row))`, padding short rows with `None` (read back
as the empty string) and skipping blank (`[]`) rows. -/

def studentToRow (r : StudentRecord) : List String :=
  [r.eventName, r.location, r.description, r.weekday, r.startTime, r.endTime, r.isCourse]

def profToRow (r : ProfRecord) : List String :=
  [r.professorName, r.email, r.eventName, r.location, r.description, r.weekday, r.startTime, r.endTime]

def emptyStoreError : String := "列表为空，至少添加一条记录后再导出"

/-- `CSVApp._write_csv`: raises on an empty store before any file is
opened; otherwise the produced file is the header row followed by one row
per record in store order. -/
def write_csv (columns : List String) (rows : List (List String)) :
    Except String (List (List String)) :=
  if rows = [] then .error emptyStoreError else .ok (columns :: rows)

def write_student_csv (data : List StudentRecord) : Except String (List (List String)) :=
  write_csv STUDENT_COLUMNS (data.map studentToRow)

def write_prof_csv (data : List ProfRecord) : Except String (List (List String)) :=
  write_csv PROFESSOR_COLUMNS (data.map profToRow)

def padTo (n : Nat) (pad : String) (l : List String) : List String :=
  l ++ List.replicate (n - l.length) pad

/-- `dict(zip(fieldnames, row)).get(col, "")` with `None`-padding of short
rows (later duplicate keys win, hence the reversed search). -/
def dictZipGet (fieldnames row : List String) (col : String) : String :=
  match (fieldnames.zip (padTo fieldnames.length "" row)).reverse.find?
      (fun p => p.1 == col) with
  | some p => p.2
  | none => ""

/-- `CSVApp._load_csv_data`, producing each kept row's cell values in
`columns` order. -/
def load_csv_rows (columns : List String) (file : List (List String)) :
    Except String (List (List String)) :=
  match file with
  | [] => .error "CSV 文件缺少表头"
  | fieldnames :: body =>
    if fieldnames = [] then .error "CSV 文件缺少表头"
    else
      let missing := columns.filter (fun c => ¬ fieldnames.contains c)
      if missing ≠ [] then .error ("缺少必要列: " ++ String.intercalate ", " missing)
      else
        let rows := (body.filter (fun r => r ≠ [])).map
          (fun row => columns.map (fun col => pstrip (dictZipGet fieldnames row col)))
        if rows = [] then .error "CSV 文件为空" else .ok rows

def studentOfCells (cells : List String) : StudentRecord :=
  { eventName := cells.getD 0 ""
    location := cells.getD 1 ""
    description := cells.getD 2 ""
    weekday := cells.getD 3 ""
    startTime := cells.getD 4 ""
    endTime := cells.getD 5 ""
    isCourse := cells.getD 6 "" }

def profOfCells (cells : List String) : ProfRecord :=
  { professorName := cells.getD 0 ""
    email := cells.getD 1 ""
    eventName := cells.getD 2 ""
    location := cells.getD 3 ""
    description := cells.getD 4 ""
    weekday := cells.getD 5 ""
    startTime := cells.getD 6 ""
    endTime := cells.getD 7 "" }

def load_student_csv (file : List (List String)) : Except String (List StudentRecord) :=
  (load_csv_rows STUDENT_COLUMNS file).map (fun rows => rows.map studentOfCells)

def load_prof_csv (file : List (List String)) : Except String (List ProfRecord) :=
  (load_csv_rows PROFESSOR_COLUMNS file).map (fun rows => rows.map profOfCells)

/-! ### Application state -/

structure AppState where
  student_data : List StudentRecord
  professor_data : List ProfRecord
  selected_student_index : Option Nat
  selected_professor_index : Option Nat
deriving DecidableEq, Repr

/-- `CSVApp.save_student_entry`: a validation error leaves everything
untouched; with a selected index the record at that (in-range) index is
assigned, else the record is appended; `clear_student_form` then clears the
selection in both branches. -/
def save_student_entry (st : AppState) (raw : RawStudent) : AppState :=
  match collect_student_input raw with
  | .error _ => st
  | .ok data =>
    match st.selected_student_index with
    | some i =>
      { st with student_data := st.student_data.set i data, selected_student_index := none }
    | none =>
      { st with student_data := st.student_data ++ [data], selected_student_index := none }

/-- `CSVApp.save_prof_entry`. -/
def save_prof_entry (st : AppState) (raw : RawProf) : AppState :=
  match collect_prof_input raw with
  | .error _ => st
  | .ok data =>
    match st.selected_professor_index with
    | some i =>
      { st with professor_data := st.professor_data.set i data,
                selected_professor_index := none }
    | none =>
      { st with professor_data := st.professor_data ++ [data],
                selected_professor_index := none }

/-- `CSVApp.import_student_csv` on an already-chosen file: any load error is
reported and the state is untouched; on success the student store is
replaced wholesale and `clear_student_form` clears the selection. -/
def import_student_csv (st : AppState) (file : List (List String)) : AppState :=
  match load_student_csv file with
  | .error _ => st
  | .ok data => { st with student_data := data, selected_student_index := none }

/-- `CSVApp.import_prof_csv`. -/
def import_prof_csv (st : AppState) (file : List (List String)) : AppState :=
  match load_prof_csv file with
  | .error _ => st
  | .ok data => { st with professor_data := data, selected_professor_index := none }

/-! ### TimeRangeDialog: slot grid and drag selection -/

def DEFAULT_STEP_MINUTES : Nat := 30

def timeLabel (minutes : Nat) : String :=
  ⟨pad2 (minutes / 60) ++ ':' :: pad2 (minutes % 60)⟩

/-- `TimeRangeDialog._build_times`: the `while minutes < 24*60` loop,
rendered with fuel 1440 (enough for any positive step). -/
def build_times_go (step : Nat) : Nat → Nat → List String
  | _, 0 => []
  | minutes, fuel + 1 =>
    if minutes < 24 * 60 then timeLabel minutes :: build_times_go step (minutes + step) fuel
    else []

def build_times (step : Nat) : List String :=
  build_times_go step 0 1440

def slot_height : Int := 14

/-- `TimeRangeDialog._y_to_idx` over `n = len(self.times)`:
`max(0, min(n - 1, y // slot_height))` (Python floor division). -/
def y_to_idx (n : Int) (y : Int) : Int :=
  max 0 (min (n - 1) (Int.fdiv y slot_height))

structure SelState where
  start_idx : Int
  end_idx : Int
deriving DecidableEq, Repr

/-- `TimeRangeDialog._on_press`. -/
def on_press (n : Int) (y : Int) : SelState :=
  let idx := y_to_idx n y
  let idx := if idx ≥ n - 1 then n - 2 else idx
  let s := max 0 idx
  ⟨s, s + 1⟩

/-- `TimeRangeDialog._on_drag`. -/
def on_drag (n : Int) (st : SelState) (y : Int) : SelState :=
  let idx := min (y_to_idx n y) (n - 1)
  if idx ≤ st.start_idx then
    let s := max 0 (min idx (n - 2))
    ⟨s, s + 1⟩
  else
    let e := min (n - 1) idx
    if e ≤ st.start_idx then ⟨st.start_idx, min (n - 1) (st.start_idx + 1)⟩
    else ⟨st.start_idx, e⟩

/-- `TimeRangeDialog._on_release` only redraws: the committed pair is the
current pair. -/
def on_release (st : SelState) : SelState := st

def runDrag (n : Int) (st : SelState) (ys : List Int) : SelState :=
  ys.foldl (on_drag n) st

/-- A full interaction: one press, any number of moves, one release. -/
def dragSequence (n : Int) (y0 : Int) (ys : List Int) : SelState :=
  on_release (runDrag n (on_press n y0) ys)

/-- `TimeRangeDialog.__init__`'s derivation of the initial indices from the
optional previously-entered clocks (exact membership lookups in the label
list; a found end label is forced above the start). -/
def initIndices (times : List String) (start_clock end_clock : Option String) :
    Nat × Nat :=
  let start_idx := match start_clock with
    | some c => if times.contains c then times.indexOf c else 0
    | none => 0
  let end_idx := match end_clock with
    | some c => if times.contains c then max (start_idx + 1) (times.indexOf c) else 1
    | none => 1
  (start_idx, end_idx)

/-- `CSVApp._extract_clock`. -/
def extract_clock (value : String) : Option String :=
  (parse_time value).map formatClock

/-- `CSVApp._detect_base_date` (`today` abstracts `datetime.now()`). -/
def detect_base_date (today : String) : List String → String
  | [] => today
  | v :: rest =>
    match parse_time v with
    | some dt => formatDate dt
    | none =>
      match parse_date v with
      | some dt => formatDate dt
      | none => detect_base_date today rest

/-- The indices the picker opens with, as wired in `open_picker`. -/
def open_picker_indices (startText endText : String) : Nat × Nat :=
  initIndices (build_times DEFAULT_STEP_MINUTES) (extract_clock startText)
    (extract_clock endText)

/-! ### Spec-side comparison definitions -/

/-- Modelled from the spec's words (claim C8): the *strict*
`YYYY-MM-DD HH:MM` surface pattern — four-digit year and zero-padded
two-digit month, day, hour and minute with exactly `-`, ` ` and `:`
separators. -/
def specStrictFormat (s : String) : Bool :=
  match s.data with
  | [a, b, c, d, '-', e, f, '-', g, h, ' ', i, j, ':', k, l] =>
    isDigitCh a && isDigitCh b && isDigitCh c && isDigitCh d &&
    isDigitCh e && isDigitCh f && isDigitCh g && isDigitCh h &&
    isDigitCh i && isDigitCh j && isDigitCh k && isDigitCh l
  | _ => false

/-- The component ranges every successfully parsed `datetime` satisfies
(`MINYEAR ≤ year ≤ 9999` from the four-digit match, constructor-checked
calendar day, regex-bounded clock). -/
def ValidDT (dt : PyDateTime) : Prop :=
  1 ≤ dt.year ∧ dt.year ≤ 9999 ∧ 1 ≤ dt.month ∧ dt.month ≤ 12 ∧
    1 ≤ dt.day ∧ dt.day ≤ daysInMonth dt.year dt.month ∧ dt.hour ≤ 23 ∧ dt.minute ≤ 59

instance : DecidablePred ValidDT := fun dt => by unfold ValidDT; infer_instance

/-- The canonical (normalized) form every record stored by
`_collect_student_input` is in. -/
def CanonStudent (r : StudentRecord) : Prop :=
  pstrip r.eventName = r.eventName ∧ r.eventName ≠ "" ∧
  pstrip r.location = r.location ∧ r.location ≠ "" ∧
  pstrip r.description = r.description ∧
  (∃ w : Int, 1 ≤ w ∧ w ≤ 7 ∧ r.weekday = toString w) ∧
  (∃ sdt edt : PyDateTime, ValidDT sdt ∧ ValidDT edt ∧
    r.startTime = formatDT sdt ∧ r.endTime = formatDT edt ∧
    sdt.sameDate edt = true ∧ edt.leB sdt = false) ∧
  (r.isCourse = "0" ∨ r.isCourse = "1")

/-- The canonical form every record stored by `_collect_prof_input` is in. -/
def CanonProf (r : ProfRecord) : Prop :=
  pstrip r.professorName = r.professorName ∧ r.professorName ≠ "" ∧
  pstrip r.email = r.email ∧ r.email ≠ "" ∧ emailMatch r.email = true ∧
  pstrip r.eventName = r.eventName ∧ r.eventName ≠ "" ∧
  pstrip r.location = r.location ∧ r.location ≠ "" ∧
  pstrip r.description = r.description ∧
  (∃ w : Int, 1 ≤ w ∧ w ≤ 7 ∧ r.weekday = toString w) ∧
  (∃ sdt edt : PyDateTime, ValidDT sdt ∧ ValidDT edt ∧
    r.startTime = formatDT sdt ∧ r.endTime = formatDT edt ∧
    sdt.sameDate edt = true ∧ edt.leB sdt = false)

/-- All seven required professor-form fields non-blank after stripping
(the presence rule of the validator). -/
def profRequiredOk (raw : RawProf) : Bool :=
  pstrip raw.professorName ≠ "" && pstrip raw.email ≠ "" &&
  pstrip raw.eventName ≠ "" && pstrip raw.location ≠ "" &&
  pstrip raw.weekday ≠ "" && pstrip raw.startTime ≠ "" && pstrip raw.endTime ≠ ""

instance {ε α : Type} [DecidableEq ε] [DecidableEq α] : DecidableEq (Except ε α) :=
  fun a b =>
    match a, b with
    | .error e, .error f =>
      if h : e = f then isTrue (by rw [h]) else isFalse (fun hh => h (Except.error.inj hh))
    | .ok x, .ok y =>
      if h : x = y then isTrue (by rw [h]) else isFalse (fun hh => h (Except.ok.inj hh))
    | .error _, .ok _ => isFalse (fun hh => Except.noConfusion hh)
    | .ok _, .error _ => isFalse (fun hh => Except.noConfusion hh)

/-! ## Lemmas -/

theorem dropWS_cons_of_false {c : Char} (h : isPySpace c = false) (t : List Char) :
    dropWS (c :: t) = c :: t := by
  simp [dropWS, h]

theorem dropWS_head_false (l : List Char) :
    dropWS l = [] ∨ ∃ c t, dropWS l = c :: t ∧ isPySpace c = false := by
  induction l with
  | nil => exact Or.inl rfl
  | cons c t ih =>
    by_cases h : isPySpace c
    · simpa [dropWS, h] using ih
    · exact Or.inr ⟨c, t, by simp [dropWS, h], by simpa using h⟩

theorem dropWS_dropWS (l : List Char) : dropWS (dropWS l) = dropWS l := by
  rcases dropWS_head_false l with h | ⟨c, t, h, hc⟩
  · simp [h, dropWS]
  · rw [h, dropWS_cons_of_false hc]

theorem dropWS_suffix (l : List Char) : ∃ pre, l = pre ++ dropWS l := by
  induction l with
  | nil => exact ⟨[], rfl⟩
  | cons c t ih =>
    by_cases h : isPySpace c
    · obtain ⟨pre, hp⟩ := ih
      exact ⟨c :: pre, by simp [dropWS, h]; exact hp⟩
    · exact ⟨[], by simp [dropWS, h]⟩

theorem dropWS_length (l : List Char) : (dropWS l).length ≤ l.length := by
  induction l with
  | nil => simp [dropWS]
  | cons c t ih =>
    by_cases h : isPySpace c
    · simp only [dropWS, h, if_true]
      exact le_trans ih (by simp)
    · simp [dropWS, h]

theorem dropWS_fix_head {c : Char} {t : List Char} (h : dropWS (c :: t) = c :: t) :
    isPySpace c = false := by
  by_contra hc
  rw [Bool.not_eq_false] at hc
  have h1 : dropWS (c :: t) = dropWS t := by simp [dropWS, hc]
  have h2 : (dropWS t).length ≤ t.length := dropWS_length t
  rw [h1] at h
  simp [h] at h2

theorem dropWS_fix_of_prefix {p x : List Char} (hx : dropWS x = x) (hp : p <+: x) :
    dropWS p = p := by
  cases p with
  | nil => rfl
  | cons c t =>
    cases x with
    | nil => exact absurd (List.eq_nil_of_prefix_nil hp) (by simp)
    | cons d s =>
      have hcd : c = d := by
        obtain ⟨r, hr⟩ := hp
        exact (List.cons_eq_cons.mp (by simpa using hr.symm)).1.symm
      subst hcd
      exact dropWS_cons_of_false (dropWS_fix_head hx) t

theorem pstripList_idem (l : List Char) : pstripList (pstripList l) = pstripList l := by
  unfold pstripList
  set x := dropWS l with hx
  have hxfix : dropWS x = x := by rw [hx, dropWS_dropWS]
  set m := (dropWS x.reverse).reverse with hm
  have hmpre : m <+: x := by
    have hsuff : dropWS x.reverse <:+ x.reverse := by
      obtain ⟨pre, hp⟩ := dropWS_suffix x.reverse
      exact ⟨pre, hp.symm⟩
    have := List.reverse_prefix.mpr (by simpa [hm] using hsuff)
    simpa [hm] using this
  have hmfix : dropWS m = m := dropWS_fix_of_prefix hxfix hmpre
  rw [hmfix]
  have hmrev : dropWS m.reverse = m.reverse := by
    rw [hm, List.reverse_reverse, dropWS_dropWS]
  rw [hmrev, List.reverse_reverse, hm]

theorem pstrip_idem (s : String) : pstrip (pstrip s) = pstrip s := by
  simp [pstrip, pstripList_idem]

/-- A list whose first and last characters are not whitespace is fixed by
stripping. -/
theorem pstripList_fix {c d : Char} (hc : isPySpace c = false) (hd : isPySpace d = false)
    (m : List Char) : pstripList (c :: (m ++ [d])) = c :: (m ++ [d]) := by
  unfold pstripList
  rw [dropWS_cons_of_false hc]
  have hrev : (c :: (m ++ [d])).reverse = d :: (m.reverse ++ [c]) := by simp
  rw [hrev, dropWS_cons_of_false hd, ← hrev, List.reverse_reverse]

/-- A singleton non-whitespace character is fixed by stripping. -/
theorem pstripList_fix_single {c : Char} (hc : isPySpace c = false) :
    pstripList [c] = [c] := by
  unfold pstripList
  rw [dropWS_cons_of_false hc]
  simp [dropWS_cons_of_false hc]

/-! ### Digit and date-time formatter lemmas -/

theorem isPySpace_digitChar {n : Nat} (h : n ≤ 9) : isPySpace (digitChar n) = false := by
  interval_cases n <;> decide

theorem digitVal_digitChar {n : Nat} (h : n ≤ 9) : digitVal (digitChar n) = some n := by
  interval_cases n <;> decide

theorem isDigitCh_digitChar {n : Nat} (h : n ≤ 9) : isDigitCh (digitChar n) = true := by
  interval_cases n <;> decide

theorem parseYear_pad4 {y : Nat} (h : y ≤ 9999) (r : List Char) :
    parseYear (pad4 y ++ r) = some (y, r) := by
  have h1 : y / 1000 ≤ 9 := by omega
  have h2 : y / 100 % 10 ≤ 9 := by omega
  have h3 : y / 10 % 10 ≤ 9 := by omega
  have h4 : y % 10 ≤ 9 := by omega
  simp only [pad4, List.cons_append, List.nil_append, parseYear,
    digitVal_digitChar h1, digitVal_digitChar h2, digitVal_digitChar h3, digitVal_digitChar h4]
  congr 2
  omega

theorem parseMonth_pad2 {m : Nat} (h1 : 1 ≤ m) (h2 : m ≤ 12) (r : List Char) :
    parseMonth (pad2 m ++ r) = some (m, r) := by
  interval_cases m <;> rfl

theorem parseDay_pad2 {d : Nat} (h1 : 1 ≤ d) (h2 : d ≤ 31) (r : List Char) :
    parseDay (pad2 d ++ r) = some (d, r) := by
  interval_cases d <;> rfl

theorem parseHour_pad2 {h : Nat} (h1 : h ≤ 23) (r : List Char) :
    parseHour (pad2 h ++ r) = some (h, r) := by
  interval_cases h <;> rfl

theorem parseMinute_pad2 {m : Nat} (h1 : m ≤ 59) (r : List Char) :
    parseMinute (pad2 m ++ r) = some (m, r) := by
  interval_cases m <;> rfl

theorem expectCh_cons (c : Char) (r : List Char) : expectCh c (c :: r) = some r := by
  simp [expectCh]

/-- The characters of a formatted date-time, reshaped to expose the first
and last character. -/
theorem formatDT_data (dt : PyDateTime) :
    (formatDT dt).data =
      digitChar (dt.year / 1000) ::
        ([digitChar (dt.year / 100 % 10), digitChar (dt.year / 10 % 10),
          digitChar (dt.year % 10), '-', digitChar (dt.month / 10), digitChar (dt.month % 10),
          '-', digitChar (dt.day / 10), digitChar (dt.day % 10), ' ',
          digitChar (dt.hour / 10), digitChar (dt.hour % 10), ':',
          digitChar (dt.minute / 10)] ++ [digitChar (dt.minute % 10)]) := rfl

theorem pstripList_formatDT {dt : PyDateTime} (h : dt.year ≤ 9999) :
    pstripList (formatDT dt).data = (formatDT dt).data := by
  rw [formatDT_data]
  exact pstripList_fix (isPySpace_digitChar (by omega)) (isPySpace_digitChar (by omega)) _

theorem pstrip_formatDT {dt : PyDateTime} (h : dt.year ≤ 9999) :
    pstrip (formatDT dt) = formatDT dt := by
  have := pstripList_formatDT h
  simp only [pstrip, this]

theorem formatDT_ne_empty (dt : PyDateTime) : formatDT dt ≠ "" := by
  intro h
  have h2 : (formatDT dt).data = [] := by rw [h]
  rw [formatDT_data] at h2
  simp at h2

theorem daysInMonth_le_31 (y m : Nat) : daysInMonth y m ≤ 31 := by
  unfold daysInMonth
  split <;> split <;> omega

/-- Round trip: parsing a canonically formatted valid date-time recovers it. -/
theorem parseDTChars_formatDT {dt : PyDateTime} (h : ValidDT dt) :
    parseDTChars (formatDT dt).data = some dt := by
  obtain ⟨hy1, hy2, hm1, hm2, hd1, hd2, hh, hmi⟩ := h
  have hd31 : dt.day ≤ 31 := le_trans hd2 (daysInMonth_le_31 _ _)
  show parseDTChars (pad4 dt.year ++ '-' :: (pad2 dt.month ++ '-' :: (pad2 dt.day ++
    ' ' :: (pad2 dt.hour ++ ':' :: (pad2 dt.minute ++ []))))) = some dt
  have hlast : parseMinute (pad2 dt.minute) = some (dt.minute, []) := by
    have := parseMinute_pad2 hmi []
    simpa using this
  have hdrop : dropWS (pad2 dt.hour ++ ':' :: pad2 dt.minute) =
      pad2 dt.hour ++ ':' :: pad2 dt.minute := by
    show dropWS (digitChar (dt.hour / 10) ::
        (digitChar (dt.hour % 10) :: (':' :: pad2 dt.minute))) = _
    rw [dropWS_cons_of_false (isPySpace_digitChar (by omega))]
    rfl
  have hws : expectWS (' ' :: (pad2 dt.hour ++ ':' :: pad2 dt.minute)) =
      some (pad2 dt.hour ++ ':' :: pad2 dt.minute) := by
    show (if isPySpace ' ' = true then
        some (dropWS (pad2 dt.hour ++ ':' :: pad2 dt.minute)) else none) =
      some (pad2 dt.hour ++ ':' :: pad2 dt.minute)
    rw [hdrop]
    rfl
  simp only [parseDTChars, parseYear_pad4 hy2, expectCh_cons, parseMonth_pad2 hm1 hm2,
    parseDay_pad2 hd1 hd31, hws, parseHour_pad2 hh, List.append_nil, hlast]
  simp [dtCtorOk, hy1, hd2]

theorem parse_time_formatDT {dt : PyDateTime} (h : ValidDT dt) :
    parse_time (formatDT dt) = some dt := by
  rw [parse_time, pstripList_formatDT h.2.1, parseDTChars_formatDT h]

/-! ### Parse-success bounds -/

theorem chBetween_bounds {lo hi c : Char} (h : chBetween lo hi c = true) (a b : Nat)
    (hlo : lo.toNat = a) (hhi : hi.toNat = b) :
    a ≤ c.toNat ∧ c.toNat ≤ b := by
  subst hlo
  subst hhi
  simpa [chBetween, Bool.and_eq_true, decide_eq_true_eq] using h

theorem digitVal_bounds {c : Char} {v : Nat} (h : digitVal c = some v) : v ≤ 9 := by
  unfold digitVal at h
  split at h
  · rename_i hc
    obtain ⟨h1, h2⟩ := chBetween_bounds hc 48 57 rfl rfl
    cases h
    omega
  · exact absurd h (by simp)

theorem parseYear_bounds {l r : List Char} {y : Nat} (h : parseYear l = some (y, r)) :
    y ≤ 9999 := by
  match l with
  | [] => simp [parseYear] at h
  | [a] => simp [parseYear] at h
  | [a, b] => simp [parseYear] at h
  | [a, b, c] => simp [parseYear] at h
  | a :: b :: c :: d :: rest =>
    simp only [parseYear] at h
    split at h
    · rename_i x1 x2 x3 x4 h1 h2 h3 h4
      have b1 := digitVal_bounds h1
      have b2 := digitVal_bounds h2
      have b3 := digitVal_bounds h3
      have b4 := digitVal_bounds h4
      cases h
      omega
    · exact absurd h (by simp)

theorem parseMonth_bounds {l r : List Char} {m : Nat} (h : parseMonth l = some (m, r)) :
    1 ≤ m ∧ m ≤ 12 := by
  match l with
  | [] => simp [parseMonth] at h
  | [a] =>
    simp only [parseMonth] at h
    split at h
    · rename_i hc
      obtain ⟨h1, h2⟩ := chBetween_bounds hc 49 57 rfl rfl
      cases h
      omega
    · exact absurd h (by simp)
  | a :: b :: rest =>
    simp only [parseMonth] at h
    split at h
    · rename_i hc
      rw [Bool.and_eq_true] at hc
      obtain ⟨h1, h2⟩ := chBetween_bounds hc.2 48 50 rfl rfl
      cases h
      omega
    · split at h
      · rename_i hc
        rw [Bool.and_eq_true] at hc
        obtain ⟨h1, h2⟩ := chBetween_bounds hc.2 49 57 rfl rfl
        cases h
        omega
      · split at h
        · rename_i hc
          obtain ⟨h1, h2⟩ := chBetween_bounds hc 49 57 rfl rfl
          cases h
          omega
        · exact absurd h (by simp)

theorem parseDay_bounds {l r : List Char} {d : Nat} (h : parseDay l = some (d, r)) :
    1 ≤ d ∧ d ≤ 31 := by
  match l with
  | [] => simp [parseDay] at h
  | [a] =>
    simp only [parseDay] at h
    split at h
    · rename_i hc
      obtain ⟨h1, h2⟩ := chBetween_bounds hc 49 57 rfl rfl
      cases h
      omega
    · exact absurd h (by simp)
  | a :: b :: rest =>
    simp only [parseDay, isDigitCh] at h
    split at h
    · rename_i hc
      rw [Bool.and_eq_true] at hc
      obtain ⟨h1, h2⟩ := chBetween_bounds hc.2 48 49 rfl rfl
      cases h
      omega
    · split at h
      · rename_i hc
        rw [Bool.and_eq_true] at hc
        obtain ⟨h1, h2⟩ := chBetween_bounds hc.1 49 50 rfl rfl
        obtain ⟨h3, h4⟩ := chBetween_bounds hc.2 48 57 rfl rfl
        cases h
        omega
      · split at h
        · rename_i hc
          rw [Bool.and_eq_true] at hc
          obtain ⟨h1, h2⟩ := chBetween_bounds hc.2 49 57 rfl rfl
          cases h
          omega
        · split at h
          · rename_i hc
            obtain ⟨h1, h2⟩ := chBetween_bounds hc 49 57 rfl rfl
            cases h
            omega
          · exact absurd h (by simp)

theorem parseHour_bounds {l r : List Char} {v : Nat} (h : parseHour l = some (v, r)) :
    v ≤ 23 := by
  match l with
  | [] => simp [parseHour] at h
  | [a] =>
    simp only [parseHour, isDigitCh] at h
    split at h
    · rename_i hc
      obtain ⟨h1, h2⟩ := chBetween_bounds hc 48 57 rfl rfl
      cases h
      omega
    · exact absurd h (by simp)
  | a :: b :: rest =>
    simp only [parseHour, isDigitCh] at h
    split at h
    · rename_i hc
      rw [Bool.and_eq_true] at hc
      obtain ⟨h1, h2⟩ := chBetween_bounds hc.2 48 51 rfl rfl
      cases h
      omega
    · split at h
      · rename_i hc
        rw [Bool.and_eq_true] at hc
        obtain ⟨h1, h2⟩ := chBetween_bounds hc.1 48 49 rfl rfl
        obtain ⟨h3, h4⟩ := chBetween_bounds hc.2 48 57 rfl rfl
        cases h
        omega
      · split at h
        · rename_i hc
          obtain ⟨h1, h2⟩ := chBetween_bounds hc 48 57 rfl rfl
          cases h
          omega
        · exact absurd h (by simp)

theorem parseMinute_bounds {l r : List Char} {v : Nat} (h : parseMinute l = some (v, r)) :
    v ≤ 59 := by
  match l with
  | [] => simp [parseMinute] at h
  | [a] =>
    simp only [parseMinute, isDigitCh] at h
    split at h
    · rename_i hc
      obtain ⟨h1, h2⟩ := chBetween_bounds hc 48 57 rfl rfl
      cases h
      omega
    · exact absurd h (by simp)
  | a :: b :: rest =>
    simp only [parseMinute, isDigitCh] at h
    split at h
    · rename_i hc
      rw [Bool.and_eq_true] at hc
      obtain ⟨h1, h2⟩ := chBetween_bounds hc.1 48 53 rfl rfl
      obtain ⟨h3, h4⟩ := chBetween_bounds hc.2 48 57 rfl rfl
      cases h
      omega
    · split at h
      · rename_i hc
        obtain ⟨h1, h2⟩ := chBetween_bounds hc 48 57 rfl rfl
        cases h
        omega
      · exact absurd h (by simp)

/-- Every date-time the parser accepts is component-wise in range. -/
theorem parseDTChars_valid {l : List Char} {dt : PyDateTime}
    (h : parseDTChars l = some dt) : ValidDT dt := by
  rw [parseDTChars] at h
  split at h
  · exact absurd h (by simp)
  · rename_i y l1 hy
    split at h
    · exact absurd h (by simp)
    · rename_i l2 h1
      split at h
      · exact absurd h (by simp)
      · rename_i mo l3 hmo
        split at h
        · exact absurd h (by simp)
        · rename_i l4 h2
          split at h
          · exact absurd h (by simp)
          · rename_i d l5 hd
            split at h
            · exact absurd h (by simp)
            · rename_i l6 h3
              split at h
              · exact absurd h (by simp)
              · rename_i hr l7 hh
                split at h
                · exact absurd h (by simp)
                · rename_i l8 h4
                  split at h
                  · exact absurd h (by simp)
                  · rename_i mi l9 hmi
                    split at h
                    · rename_i hcond
                      rw [Bool.and_eq_true, decide_eq_true_eq] at hcond
                      have hok : dtCtorOk y mo d = true := hcond.2
                      rw [dtCtorOk, Bool.and_eq_true, decide_eq_true_eq,
                        decide_eq_true_eq] at hok
                      cases h
                      exact ⟨hok.1, parseYear_bounds hy, (parseMonth_bounds hmo).1,
                        (parseMonth_bounds hmo).2, (parseDay_bounds hd).1, hok.2,
                        parseHour_bounds hh, parseMinute_bounds hmi⟩
                    · exact absurd h (by simp)

theorem parse_time_valid {s : String} {dt : PyDateTime}
    (h : parse_time s = some dt) : ValidDT dt :=
  parseDTChars_valid h

/-! ### Weekday and IsCourse canonical-form facts -/

theorem validate_weekday_ok {v : String} {w : Int}
    (h : validate_weekday v = .ok w) : 1 ≤ w ∧ w ≤ 7 := by
  unfold validate_weekday at h
  split at h
  · exact absurd h (by simp)
  · split at h
    · exact absurd h (by simp)
    · rename_i hr
      cases h
      omega

theorem weekday_canon {w : Int} (h1 : 1 ≤ w) (h2 : w ≤ 7) :
    pstrip (toString w) = toString w ∧ validate_weekday (toString w) = .ok w ∧
      toString w ≠ "" := by
  interval_cases w <;> exact ⟨rfl, rfl, by decide⟩

theorem iscourse_canon {v : Int} (h : v = 0 ∨ v = 1) :
    pyInt (toString v) = some v ∧ toString v ≠ "" := by
  rcases h with rfl | rfl <;> exact ⟨by decide, by decide⟩

/-! ### The validators produce canonical records (C2, first half) -/

theorem collect_student_canon {raw : RawStudent} {rec : StudentRecord}
    (h : collect_student_input raw = .ok rec) : CanonStudent rec := by
  simp only [collect_student_input] at h
  split at h
  · exact absurd h (by simp)
  split at h
  · exact absurd h (by simp)
  split at h
  · exact absurd h (by simp)
  split at h
  · exact absurd h (by simp)
  split at h
  · exact absurd h (by simp)
  rename_i hev hlo hwk hst hen
  split at h
  · exact absurd h (by simp)
  rename_i w hw
  split at h
  · exact absurd h (by simp)
  rename_i sdt hs
  split at h
  · exact absurd h (by simp)
  rename_i edt he
  split at h
  · exact absurd h (by simp)
  rename_i hsd
  split at h
  · exact absurd h (by simp)
  rename_i hle
  split at h
  · exact absurd h (by simp)
  rename_i hic
  cases h
  have hwb := validate_weekday_ok hw
  refine ⟨pstrip_idem _, ?_, pstrip_idem _, ?_, pstrip_idem _,
    ⟨w, hwb.1, hwb.2, rfl⟩,
    ⟨sdt, edt, parse_time_valid hs, parse_time_valid he, rfl, rfl, ?_, ?_⟩, ?_⟩
  · rw [pstrip_idem] at hev
    exact hev
  · rw [pstrip_idem] at hlo
    exact hlo
  · revert hsd
    cases sdt.sameDate edt <;> simp
  · revert hle
    cases edt.leB sdt <;> simp
  · rcases Decidable.em (raw.isCourse = 0) with h0 | h0
    · exact Or.inl (by rw [h0]; rfl)
    · rcases Decidable.em (raw.isCourse = 1) with h1 | h1
      · exact Or.inr (by rw [h1]; rfl)
      · exact absurd ⟨h0, h1⟩ hic

theorem collect_prof_canon {raw : RawProf} {rec : ProfRecord}
    (h : collect_prof_input raw = .ok rec) : CanonProf rec := by
  simp only [collect_prof_input] at h
  split at h
  · exact absurd h (by simp)
  split at h
  · exact absurd h (by simp)
  split at h
  · exact absurd h (by simp)
  split at h
  · exact absurd h (by simp)
  split at h
  · exact absurd h (by simp)
  split at h
  · exact absurd h (by simp)
  split at h
  · exact absurd h (by simp)
  rename_i hna hem hev hlo hwk hst hen
  split at h
  · exact absurd h (by simp)
  rename_i em hemv
  split at h
  · exact absurd h (by simp)
  rename_i w hw
  split at h
  · exact absurd h (by simp)
  rename_i sdt hs
  split at h
  · exact absurd h (by simp)
  rename_i edt he
  split at h
  · exact absurd h (by simp)
  rename_i hsd
  split at h
  · exact absurd h (by simp)
  rename_i hle
  cases h
  have hwb := validate_weekday_ok hw
  have hemt : emailMatch (pstrip raw.email) = true := by
    by_contra hb
    rw [Bool.not_eq_true] at hb
    unfold validate_email at hemv
    rw [hb] at hemv
    exact absurd hemv (by simp)
  exact ⟨pstrip_idem _, hna, pstrip_idem _, hem, hemt,
    pstrip_idem _, hev, pstrip_idem _, hlo, pstrip_idem _,
    ⟨w, hwb.1, hwb.2, rfl⟩,
    ⟨sdt, edt, parse_time_valid hs, parse_time_valid he, rfl, rfl,
      by revert hsd; cases sdt.sameDate edt <;> simp,
      by revert hle; cases edt.leB sdt <;> simp⟩⟩

/-! ### Canonical records are fixed points of validation (C2, second half) -/

theorem collect_student_fix {rec : StudentRecord} (h : CanonStudent rec) :
    collect_student_input rec.toRaw = .ok rec := by
  obtain ⟨e, l, d, wk, st, en, ic⟩ := rec
  obtain ⟨he1, he2, hl1, hl2, hd1, ⟨w, hw1, hw2, hwf⟩,
    ⟨sdt, edt, hvs, hve, hsf, hef, hsd, hle⟩, hic⟩ := h
  simp only at he1 he2 hl1 hl2 hd1 hwf hsf hef hic
  subst hwf
  subst hsf
  subst hef
  obtain ⟨wk1, wk2, wk3⟩ := weekday_canon hw1 hw2
  have hsp := pstrip_formatDT hvs.2.1
  have hep := pstrip_formatDT hve.2.1
  have hspt := parse_time_formatDT hvs
  have hept := parse_time_formatDT hve
  rcases hic with h0 | h0 <;> subst h0 <;>
    simp [collect_student_input, StudentRecord.toRaw, pstrip_idem, he1, hl1, hd1,
      he2, hl2, wk1, wk2, wk3, hsp, hep, hspt, hept, hsd, hle, formatDT_ne_empty,
      (show (pyInt "0").getD 0 = (0 : Int) from by decide),
      (show (pyInt "1").getD 0 = (1 : Int) from by decide),
      (show toString (0 : Int) = "0" from by decide),
      (show toString (1 : Int) = "1" from by decide)]

theorem collect_prof_fix {rec : ProfRecord} (h : CanonProf rec) :
    collect_prof_input rec.toRaw = .ok rec := by
  obtain ⟨pn, em, e, l, d, wk, st, en⟩ := rec
  obtain ⟨hp1, hp2, hm1, hm2, hm3, he1, he2, hl1, hl2, hd1, ⟨w, hw1, hw2, hwf⟩,
    ⟨sdt, edt, hvs, hve, hsf, hef, hsd, hle⟩⟩ := h
  simp only at hp1 hp2 hm1 hm2 hm3 he1 he2 hl1 hl2 hd1 hwf hsf hef
  subst hwf
  subst hsf
  subst hef
  obtain ⟨wk1, wk2, wk3⟩ := weekday_canon hw1 hw2
  have hsp := pstrip_formatDT hvs.2.1
  have hep := pstrip_formatDT hve.2.1
  have hspt := parse_time_formatDT hvs
  have hept := parse_time_formatDT hve
  simp [collect_prof_input, ProfRecord.toRaw, validate_email, pstrip_idem,
    hp1, hp2, hm1, hm2, hm3, he1, he2, hl1, hl2, hd1,
    wk1, wk2, wk3, hsp, hep, hspt, hept, hsd, hle, formatDT_ne_empty]

/-! ## Claims -/

/-- C2: for every valid record (of either dataset), running the validator on
the record's own serialized (canonical) field strings succeeds and returns
the record unchanged — validation normalizes the weekday to its integer
string and re-serializes both date-times through the canonical
`YYYY-MM-DD HH:MM` formatter, and canonical values are fixed points of that
normalization. -/
theorem c2_validate_serialize_roundtrip
    (rawS : RawStudent) (recS : StudentRecord) (rawP : RawProf) (recP : ProfRecord)
    (hS : collect_student_input rawS = .ok recS)
    (hP : collect_prof_input rawP = .ok recP) :
    collect_student_input recS.toRaw = .ok recS ∧
      collect_prof_input recP.toRaw = .ok recP :=
  ⟨collect_student_fix (collect_student_canon hS),
    collect_prof_fix (collect_prof_canon hP)⟩

/-- Witness for C2 at a concrete student record and professor record. -/
theorem c2_witness :
    collect_student_input ⟨" Math ", "R1", "", "3", "2024-01-01 09:00", "2024-01-01 10:30", 1⟩ =
      .ok ⟨"Math", "R1", "", "3", "2024-01-01 09:00", "2024-01-01 10:30", "1"⟩ ∧
    collect_prof_input ⟨"Ann", "a@b.co", "Office Hour", "L1", "", "5", "2024-03-02 14:00", "2024-03-02 15:30"⟩ =
      .ok ⟨"Ann", "a@b.co", "Office Hour", "L1", "", "5", "2024-03-02 14:00", "2024-03-02 15:30"⟩ ∧
    collect_student_input
        (StudentRecord.toRaw ⟨"Math", "R1", "", "3", "2024-01-01 09:00", "2024-01-01 10:30", "1"⟩) =
      .ok ⟨"Math", "R1", "", "3", "2024-01-01 09:00", "2024-01-01 10:30", "1"⟩ ∧
    collect_prof_input
        (ProfRecord.toRaw ⟨"Ann", "a@b.co", "Office Hour", "L1", "", "5", "2024-03-02 14:00", "2024-03-02 15:30"⟩) =
      .ok ⟨"Ann", "a@b.co", "Office Hour", "L1", "", "5", "2024-03-02 14:00", "2024-03-02 15:30"⟩ := by
  have h1 : collect_student_input ⟨" Math ", "R1", "", "3", "2024-01-01 09:00", "2024-01-01 10:30", 1⟩ =
      .ok ⟨"Math", "R1", "", "3", "2024-01-01 09:00", "2024-01-01 10:30", "1"⟩ := by decide
  have h2 : collect_prof_input ⟨"Ann", "a@b.co", "Office Hour", "L1", "", "5", "2024-03-02 14:00", "2024-03-02 15:30"⟩ =
      .ok ⟨"Ann", "a@b.co", "Office Hour", "L1", "", "5", "2024-03-02 14:00", "2024-03-02 15:30"⟩ := by decide
  have h3 := c2_validate_serialize_roundtrip _ _ _ _ h1 h2
  exact ⟨h1, h2, h3.1, h3.2⟩

/-! ### CSV round trip (C1) -/

theorem pstrip_isCourse {s : String} (h : s = "0" ∨ s = "1") : pstrip s = s := by
  rcases h with rfl | rfl <;> decide

theorem row_roundtrip_student {r : StudentRecord} (h : CanonStudent r) :
    STUDENT_COLUMNS.map (fun col => pstrip (dictZipGet STUDENT_COLUMNS (studentToRow r) col)) =
      studentToRow r := by
  obtain ⟨he1, -, hl1, -, hd1, ⟨w, hw1, hw2, hwf⟩,
    ⟨sdt, edt, hvs, hve, hsf, hef, -, -⟩, hic⟩ := h
  show [pstrip r.eventName, pstrip r.location, pstrip r.description, pstrip r.weekday,
    pstrip r.startTime, pstrip r.endTime, pstrip r.isCourse] = studentToRow r
  rw [studentToRow, he1, hl1, hd1, hwf, hsf, hef, (weekday_canon hw1 hw2).1,
    pstrip_formatDT hvs.2.1, pstrip_formatDT hve.2.1, pstrip_isCourse hic]

theorem row_roundtrip_prof {r : ProfRecord} (h : CanonProf r) :
    PROFESSOR_COLUMNS.map (fun col => pstrip (dictZipGet PROFESSOR_COLUMNS (profToRow r) col)) =
      profToRow r := by
  obtain ⟨hp1, -, hm1, -, -, he1, -, hl1, -, hd1, ⟨w, hw1, hw2, hwf⟩,
    ⟨sdt, edt, hvs, hve, hsf, hef, -, -⟩⟩ := h
  show [pstrip r.professorName, pstrip r.email, pstrip r.eventName, pstrip r.location,
    pstrip r.description, pstrip r.weekday, pstrip r.startTime, pstrip r.endTime] = profToRow r
  rw [profToRow, hp1, hm1, he1, hl1, hd1, hwf, hsf, hef, (weekday_canon hw1 hw2).1,
    pstrip_formatDT hvs.2.1, pstrip_formatDT hve.2.1]

theorem load_student_roundtrip {l : List StudentRecord} (hne : l ≠ [])
    (hc : ∀ r ∈ l, CanonStudent r) :
    load_student_csv (STUDENT_COLUMNS :: l.map studentToRow) = .ok l := by
  unfold load_student_csv load_csv_rows
  have hfil : (l.map studentToRow).filter (fun r => r ≠ []) = l.map studentToRow := by
    rw [List.filter_eq_self]
    intro a ha
    obtain ⟨r, -, rfl⟩ := List.mem_map.mp ha
    simp [studentToRow]
  have hmap : (l.map studentToRow).map
      (fun row => STUDENT_COLUMNS.map (fun col => pstrip (dictZipGet STUDENT_COLUMNS row col))) =
      l.map studentToRow := by
    rw [List.map_map]
    exact List.map_congr_left (fun r hr => row_roundtrip_student (hc r hr))
  simp only [hfil, hmap]
  have hrows : l.map studentToRow ≠ [] := by
    simp [List.map_eq_nil_iff]
    intro hl
    exact hne hl
  have hcells : (l.map studentToRow).map studentOfCells = l := by
    rw [List.map_map]
    exact (List.map_congr_left (fun r _ => rfl)).trans (List.map_id l)
  simp [hrows, hcells, Except.map, show STUDENT_COLUMNS ≠ [] from by decide]

theorem load_prof_roundtrip {l : List ProfRecord} (hne : l ≠ [])
    (hc : ∀ r ∈ l, CanonProf r) :
    load_prof_csv (PROFESSOR_COLUMNS :: l.map profToRow) = .ok l := by
  unfold load_prof_csv load_csv_rows
  have hfil : (l.map profToRow).filter (fun r => r ≠ []) = l.map profToRow := by
    rw [List.filter_eq_self]
    intro a ha
    obtain ⟨r, -, rfl⟩ := List.mem_map.mp ha
    simp [profToRow]
  have hmap : (l.map profToRow).map
      (fun row => PROFESSOR_COLUMNS.map (fun col => pstrip (dictZipGet PROFESSOR_COLUMNS row col))) =
      l.map profToRow := by
    rw [List.map_map]
    exact List.map_congr_left (fun r hr => row_roundtrip_prof (hc r hr))
  simp only [hfil, hmap]
  have hrows : l.map profToRow ≠ [] := by
    simp [List.map_eq_nil_iff]
    intro hl
    exact hne hl
  have hcells : (l.map profToRow).map profOfCells = l := by
    rw [List.map_map]
    exact (List.map_congr_left (fun r _ => rfl)).trans (List.map_id l)
  simp [hrows, hcells, Except.map, show PROFESSOR_COLUMNS ≠ [] from by decide]

/-- C1: for every non-empty store of validated (canonical) records, importing
the file produced by exporting that store yields the same ordered sequence of
records — export writes the fixed header then one row per record in store
order with field values verbatim, and import reads those rows back, so
`import(export(store)) == store`. -/
theorem c1_csv_roundtrip (ls : List StudentRecord) (lp : List ProfRecord)
    (hs : ls ≠ []) (hp : lp ≠ [])
    (hcs : ∀ r ∈ ls, CanonStudent r) (hcp : ∀ r ∈ lp, CanonProf r) :
    (write_student_csv ls).bind load_student_csv = .ok ls ∧
      (write_prof_csv lp).bind load_prof_csv = .ok lp := by
  constructor
  · have hw : write_student_csv ls = .ok (STUDENT_COLUMNS :: ls.map studentToRow) := by
      unfold write_student_csv write_csv
      have : ls.map studentToRow ≠ [] := by
        simp [List.map_eq_nil_iff]
        intro hl
        exact hs hl
      simp [this]
    rw [hw]
    exact load_student_roundtrip hs hcs
  · have hw : write_prof_csv lp = .ok (PROFESSOR_COLUMNS :: lp.map profToRow) := by
      unfold write_prof_csv write_csv
      have : lp.map profToRow ≠ [] := by
        simp [List.map_eq_nil_iff]
        intro hl
        exact hp hl
      simp [this]
    rw [hw]
    exact load_prof_roundtrip hp hcp

/-- Witness for C1 at concrete singleton stores. -/
theorem c1_witness :
    ((([⟨"Math", "R1", "", "3", "2024-01-01 09:00", "2024-01-01 10:30", "1"⟩] : List StudentRecord) ≠ []) ∧
      (([⟨"Ann", "a@b.co", "Office Hour", "L1", "", "5", "2024-03-02 14:00", "2024-03-02 15:30"⟩] : List ProfRecord) ≠ [])) ∧
    (write_student_csv [⟨"Math", "R1", "", "3", "2024-01-01 09:00", "2024-01-01 10:30", "1"⟩]).bind
        load_student_csv =
      .ok [⟨"Math", "R1", "", "3", "2024-01-01 09:00", "2024-01-01 10:30", "1"⟩] ∧
    (write_prof_csv [⟨"Ann", "a@b.co", "Office Hour", "L1", "", "5", "2024-03-02 14:00", "2024-03-02 15:30"⟩]).bind
        load_prof_csv =
      .ok [⟨"Ann", "a@b.co", "Office Hour", "L1", "", "5", "2024-03-02 14:00", "2024-03-02 15:30"⟩] := by
  have hcs : ∀ r ∈ ([⟨"Math", "R1", "", "3", "2024-01-01 09:00", "2024-01-01 10:30", "1"⟩] : List StudentRecord),
      CanonStudent r := by
    intro r hr
    rw [List.mem_singleton] at hr
    subst hr
    exact @collect_student_canon ⟨"Math", "R1", "", "3", "2024-01-01 09:00", "2024-01-01 10:30", 1⟩
      ⟨"Math", "R1", "", "3", "2024-01-01 09:00", "2024-01-01 10:30", "1"⟩ (by decide)
  have hcp : ∀ r ∈ ([⟨"Ann", "a@b.co", "Office Hour", "L1", "", "5", "2024-03-02 14:00", "2024-03-02 15:30"⟩] : List ProfRecord),
      CanonProf r := by
    intro r hr
    rw [List.mem_singleton] at hr
    subst hr
    exact @collect_prof_canon
      ⟨"Ann", "a@b.co", "Office Hour", "L1", "", "5", "2024-03-02 14:00", "2024-03-02 15:30"⟩
      ⟨"Ann", "a@b.co", "Office Hour", "L1", "", "5", "2024-03-02 14:00", "2024-03-02 15:30"⟩
      (by decide)
  have h := c1_csv_roundtrip _ _ (by simp) (by simp) hcs hcp
  exact ⟨⟨by simp, by simp⟩, h.1, h.2⟩

/-! ### Import error handling and atomic replacement (C5) -/

/-- C5: importing a file whose header contains all required columns but that
has zero data rows fails with the "CSV 文件为空" (file is empty) error and the
target store is unchanged; more generally, any import failure leaves the
application state exactly as it was, because all rows are parsed before the
store is replaced wholesale. Stated for both datasets. -/
theorem c5_import_empty_and_atomic (st : AppState) (header : List String)
    (file : List (List String)) :
    ((∀ c ∈ STUDENT_COLUMNS, header.contains c) →
      load_student_csv [header] = .error "CSV 文件为空" ∧
        import_student_csv st [header] = st) ∧
    (∀ e, load_student_csv file = .error e → import_student_csv st file = st) ∧
    ((∀ c ∈ PROFESSOR_COLUMNS, header.contains c) →
      load_prof_csv [header] = .error "CSV 文件为空" ∧
        import_prof_csv st [header] = st) ∧
    (∀ e, load_prof_csv file = .error e → import_prof_csv st file = st) := by
  refine ⟨?_, ?_, ?_, ?_⟩
  · intro hcols
    have hload : load_student_csv [header] = .error "CSV 文件为空" := by
      have hh : header ≠ [] := by
        intro hnil
        have := hcols "EventName" (by decide)
        rw [hnil] at this
        simp at this
      have hmiss : ¬ ∃ x ∈ STUDENT_COLUMNS, x ∉ header := by
        rintro ⟨x, hx, hnx⟩
        exact hnx (by simpa using hcols x hx)
      unfold load_student_csv load_csv_rows
      simp [hh, hmiss, Except.map]
    exact ⟨hload, by unfold import_student_csv; rw [hload]⟩
  · intro e he
    unfold import_student_csv
    rw [he]
  · intro hcols
    have hload : load_prof_csv [header] = .error "CSV 文件为空" := by
      have hh : header ≠ [] := by
        intro hnil
        have := hcols "Email" (by decide)
        rw [hnil] at this
        simp at this
      have hmiss : ¬ ∃ x ∈ PROFESSOR_COLUMNS, x ∉ header := by
        rintro ⟨x, hx, hnx⟩
        exact hnx (by simpa using hcols x hx)
      unfold load_prof_csv load_csv_rows
      simp [hh, hmiss, Except.map]
    exact ⟨hload, by unfold import_prof_csv; rw [hload]⟩
  · intro e he
    unfold import_prof_csv
    rw [he]

/-- Witness for C5: the exact header rows with a non-empty starting state. -/
theorem c5_witness :
    (∀ c ∈ STUDENT_COLUMNS, (STUDENT_COLUMNS).contains c) ∧
    (∀ c ∈ PROFESSOR_COLUMNS, (PROFESSOR_COLUMNS).contains c) ∧
    load_student_csv [STUDENT_COLUMNS] = .error "CSV 文件为空" ∧
    import_student_csv
        ⟨[⟨"Math", "R1", "", "3", "2024-01-01 09:00", "2024-01-01 10:30", "1"⟩], [], some 0, none⟩
        [STUDENT_COLUMNS] =
      ⟨[⟨"Math", "R1", "", "3", "2024-01-01 09:00", "2024-01-01 10:30", "1"⟩], [], some 0, none⟩ ∧
    load_prof_csv [PROFESSOR_COLUMNS] = .error "CSV 文件为空" ∧
    import_prof_csv
        ⟨[⟨"Math", "R1", "", "3", "2024-01-01 09:00", "2024-01-01 10:30", "1"⟩], [], some 0, none⟩
        [PROFESSOR_COLUMNS] =
      ⟨[⟨"Math", "R1", "", "3", "2024-01-01 09:00", "2024-01-01 10:30", "1"⟩], [], some 0, none⟩ := by
  have hs := (c5_import_empty_and_atomic
    ⟨[⟨"Math", "R1", "", "3", "2024-01-01 09:00", "2024-01-01 10:30", "1"⟩], [], some 0, none⟩
    STUDENT_COLUMNS []).1 (by decide)
  have hp := (c5_import_empty_and_atomic
    ⟨[⟨"Math", "R1", "", "3", "2024-01-01 09:00", "2024-01-01 10:30", "1"⟩], [], some 0, none⟩
    PROFESSOR_COLUMNS []).2.2.1 (by decide)
  exact ⟨by decide, by decide, hs.1, hs.2, hp.1, hp.2⟩

/-! ### Export on an empty store (C6) -/

/-- C6: exporting with zero records fails with the "列表为空，至少添加一条记录后再导出"
("add at least one record first") error for both datasets; the emptiness
check precedes any write, so no CSV file value is ever produced. -/
theorem c6_export_empty_store :
    write_student_csv [] = .error "列表为空，至少添加一条记录后再导出" ∧
      write_prof_csv [] = .error "列表为空，至少添加一条记录后再导出" ∧
      (∀ f, write_student_csv [] ≠ .ok f) ∧ (∀ f, write_prof_csv [] ≠ .ok f) := by
  refine ⟨rfl, rfl, ?_, ?_⟩ <;> intro f h <;> exact Except.noConfusion h

/-! ### Save replaces exactly the selected record (C10) -/

/-- C10: saving a newly validated record while index `i` is selected replaces
exactly the record at position `i` — the store's length is unchanged, every
other position keeps its record, the other dataset is untouched, and the
selection is cleared afterwards; with no selection the record is appended
and all existing records keep their positions. Stated for both datasets. -/
theorem c10_save_frame (st : AppState) (rawS : RawStudent) (recS : StudentRecord)
    (rawP : RawProf) (recP : ProfRecord)
    (hS : collect_student_input rawS = .ok recS)
    (hP : collect_prof_input rawP = .ok recP) :
    (∀ i, st.selected_student_index = some i → i < st.student_data.length →
      (save_student_entry st rawS).student_data.length = st.student_data.length ∧
      (save_student_entry st rawS).student_data[i]? = some recS ∧
      (∀ j, j ≠ i → (save_student_entry st rawS).student_data[j]? = st.student_data[j]?) ∧
      (save_student_entry st rawS).selected_student_index = none ∧
      (save_student_entry st rawS).professor_data = st.professor_data) ∧
    (st.selected_student_index = none →
      (save_student_entry st rawS).student_data = st.student_data ++ [recS] ∧
      (save_student_entry st rawS).selected_student_index = none ∧
      (save_student_entry st rawS).professor_data = st.professor_data) ∧
    (∀ i, st.selected_professor_index = some i → i < st.professor_data.length →
      (save_prof_entry st rawP).professor_data.length = st.professor_data.length ∧
      (save_prof_entry st rawP).professor_data[i]? = some recP ∧
      (∀ j, j ≠ i → (save_prof_entry st rawP).professor_data[j]? = st.professor_data[j]?) ∧
      (save_prof_entry st rawP).selected_professor_index = none ∧
      (save_prof_entry st rawP).student_data = st.student_data) ∧
    (st.selected_professor_index = none →
      (save_prof_entry st rawP).professor_data = st.professor_data ++ [recP] ∧
      (save_prof_entry st rawP).selected_professor_index = none ∧
      (save_prof_entry st rawP).student_data = st.student_data) := by
  refine ⟨?_, ?_, ?_, ?_⟩
  · intro i hsel hlt
    simp only [save_student_entry, hS, hsel]
    refine ⟨by simp, ?_, ?_, by simp, by simp⟩
    · simp [List.getElem?_set_self hlt]
    · intro j hj
      simp [List.getElem?_set_ne (Ne.symm hj)]
  · intro hsel
    simp only [save_student_entry, hS, hsel]
    refine ⟨by simp, by simp, by simp⟩
  · intro i hsel hlt
    simp only [save_prof_entry, hP, hsel]
    refine ⟨by simp, ?_, ?_, by simp, by simp⟩
    · simp [List.getElem?_set_self hlt]
    · intro j hj
      simp [List.getElem?_set_ne (Ne.symm hj)]
  · intro hsel
    simp only [save_prof_entry, hP, hsel]
    refine ⟨by simp, by simp, by simp⟩

/-- Witness for C10 at a concrete two-record store with index 0 selected. -/
theorem c10_witness :
    (⟨[⟨"Old", "R0", "", "2", "2024-01-01 08:00", "2024-01-01 09:00", "0"⟩,
        ⟨"Keep", "R2", "", "4", "2024-01-02 08:00", "2024-01-02 09:00", "1"⟩],
      [], some 0, none⟩ : AppState).selected_student_index = some 0 ∧
    (0 : Nat) < 2 ∧
    (save_student_entry
        ⟨[⟨"Old", "R0", "", "2", "2024-01-01 08:00", "2024-01-01 09:00", "0"⟩,
          ⟨"Keep", "R2", "", "4", "2024-01-02 08:00", "2024-01-02 09:00", "1"⟩],
          [], some 0, none⟩
        ⟨"New", "R1", "", "3", "2024-01-01 09:00", "2024-01-01 10:30", 1⟩).student_data.length = 2 ∧
    (save_student_entry
        ⟨[⟨"Old", "R0", "", "2", "2024-01-01 08:00", "2024-01-01 09:00", "0"⟩,
          ⟨"Keep", "R2", "", "4", "2024-01-02 08:00", "2024-01-02 09:00", "1"⟩],
          [], some 0, none⟩
        ⟨"New", "R1", "", "3", "2024-01-01 09:00", "2024-01-01 10:30", 1⟩).student_data[0]? =
      some ⟨"New", "R1", "", "3", "2024-01-01 09:00", "2024-01-01 10:30", "1"⟩ ∧
    (save_student_entry
        ⟨[⟨"Old", "R0", "", "2", "2024-01-01 08:00", "2024-01-01 09:00", "0"⟩,
          ⟨"Keep", "R2", "", "4", "2024-01-02 08:00", "2024-01-02 09:00", "1"⟩],
          [], some 0, none⟩
        ⟨"New", "R1", "", "3", "2024-01-01 09:00", "2024-01-01 10:30", 1⟩).student_data[1]? =
      some ⟨"Keep", "R2", "", "4", "2024-01-02 08:00", "2024-01-02 09:00", "1"⟩ ∧
    (save_student_entry
        ⟨[⟨"Old", "R0", "", "2", "2024-01-01 08:00", "2024-01-01 09:00", "0"⟩,
          ⟨"Keep", "R2", "", "4", "2024-01-02 08:00", "2024-01-02 09:00", "1"⟩],
          [], some 0, none⟩
        ⟨"New", "R1", "", "3", "2024-01-01 09:00", "2024-01-01 10:30", 1⟩).selected_student_index =
      none := by
  have hS : collect_student_input ⟨"New", "R1", "", "3", "2024-01-01 09:00", "2024-01-01 10:30", 1⟩ =
      .ok ⟨"New", "R1", "", "3", "2024-01-01 09:00", "2024-01-01 10:30", "1"⟩ := by decide
  have hP : collect_prof_input
      ⟨"Ann", "a@b.co", "Office Hour", "L1", "", "5", "2024-03-02 14:00", "2024-03-02 15:30"⟩ =
      .ok ⟨"Ann", "a@b.co", "Office Hour", "L1", "", "5", "2024-03-02 14:00", "2024-03-02 15:30"⟩ := by
    decide
  have h := (c10_save_frame
    ⟨[⟨"Old", "R0", "", "2", "2024-01-01 08:00", "2024-01-01 09:00", "0"⟩,
      ⟨"Keep", "R2", "", "4", "2024-01-02 08:00", "2024-01-02 09:00", "1"⟩],
      [], some 0, none⟩ _ _ _ _ hS hP).1 0 rfl (by decide)
  exact ⟨rfl, by decide, h.1, h.2.1, h.2.2.1 1 (by decide), h.2.2.2.1⟩

/-! ### Drag-selection invariants (C3, C4) -/

/-- The selection invariant maintained between press and release:
`0 ≤ start ≤ n-2 < end ≤ n-1` with `end = start + 1` or larger. -/
def SelInv (n : Int) (s : SelState) : Prop :=
  0 ≤ s.start_idx ∧ s.start_idx ≤ n - 2 ∧ s.start_idx < s.end_idx ∧ s.end_idx ≤ n - 1

theorem y_to_idx_bounds {n : Int} (hn : 1 ≤ n) (y : Int) :
    0 ≤ y_to_idx n y ∧ y_to_idx n y ≤ n - 1 := by
  unfold y_to_idx
  simp only [min_def, max_def]
  split_ifs <;> omega

theorem on_press_inv {n : Int} (hn : 2 ≤ n) (y : Int) : SelInv n (on_press n y) := by
  have hb := @y_to_idx_bounds n (by omega) y
  unfold on_press SelInv
  dsimp only
  simp only [max_def]
  split_ifs <;> (try dsimp only) <;> refine ⟨by omega, by omega, by omega, by omega⟩

theorem on_drag_inv {n : Int} {s : SelState} (hn : 2 ≤ n) (h : SelInv n s) (y : Int) :
    SelInv n (on_drag n s y) := by
  obtain ⟨h1, h2, h3, h4⟩ := h
  have hb := @y_to_idx_bounds n (by omega) y
  unfold on_drag SelInv
  dsimp only
  simp only [min_def, max_def]
  split_ifs <;> (try dsimp only) <;> refine ⟨by omega, by omega, by omega, by omega⟩

theorem runDrag_inv {n : Int} {s : SelState} (hn : 2 ≤ n) (h : SelInv n s)
    (ys : List Int) : SelInv n (runDrag n s ys) := by
  induction ys generalizing s with
  | nil => exact h
  | cons y ys ih => exact ih (on_drag_inv hn h y)

/-- C3: for every drag sequence of one press, any number of moves and a
release (at arbitrary y coordinates), the resulting selection satisfies
`endIndex > startIndex` with both indices in `[0, count-1]`, where
`count = len(times) = 1440 / step` at the default 30-minute step. -/
theorem c3_drag_selection_invariant (y0 : Int) (ys : List Int) :
    0 ≤ (dragSequence ((build_times DEFAULT_STEP_MINUTES).length : Int) y0 ys).start_idx ∧
    (dragSequence ((build_times DEFAULT_STEP_MINUTES).length : Int) y0 ys).start_idx <
      (dragSequence ((build_times DEFAULT_STEP_MINUTES).length : Int) y0 ys).end_idx ∧
    (dragSequence ((build_times DEFAULT_STEP_MINUTES).length : Int) y0 ys).start_idx ≤
      ((build_times DEFAULT_STEP_MINUTES).length : Int) - 1 ∧
    0 ≤ (dragSequence ((build_times DEFAULT_STEP_MINUTES).length : Int) y0 ys).end_idx ∧
    (dragSequence ((build_times DEFAULT_STEP_MINUTES).length : Int) y0 ys).end_idx ≤
      ((build_times DEFAULT_STEP_MINUTES).length : Int) - 1 ∧
    (build_times DEFAULT_STEP_MINUTES).length = 1440 / DEFAULT_STEP_MINUTES := by
  have hlen : (build_times DEFAULT_STEP_MINUTES).length = 48 := by decide
  have hn : (2 : Int) ≤ ((build_times DEFAULT_STEP_MINUTES).length : Int) := by
    rw [hlen]
    omega
  have h := runDrag_inv hn (on_press_inv hn y0) ys
  obtain ⟨h1, h2, h3, h4⟩ := h
  unfold dragSequence on_release
  refine ⟨h1, h3, by omega, by omega, h4, by rw [hlen]; decide⟩

/-- Characterization of a single move: the clamped index either re-anchors
the start (when at or below it) or becomes the new end. -/
theorem on_drag_eq {n : Int} (hn : 1 ≤ n) (s : SelState) (y : Int) :
    on_drag n s y =
      if y_to_idx n y ≤ s.start_idx then
        ⟨max 0 (min (y_to_idx n y) (n - 2)), max 0 (min (y_to_idx n y) (n - 2)) + 1⟩
      else ⟨s.start_idx, y_to_idx n y⟩ := by
  have hb := @y_to_idx_bounds n hn y
  unfold on_drag
  simp only [min_def, max_def]
  split_ifs <;> simp only [SelState.mk.injEq] <;> constructor <;> first | trivial | omega

/-- C4: on every move while a selection is active, with
`idx = coordinateToIndex(y)` clamped to `[0, count-1]`: if `idx ≤ startIndex`
the start re-anchors to `clamp(idx, 0, count-2)` with `endIndex` one above
it, otherwise `endIndex` becomes `idx` (the forcing to `startIndex + 1`
never needs to fire there since `idx > startIndex`); in particular pressing
at slot 10 and dragging to slot 3 yields the selection `(3, 4)`, not
`(10, 3)`. -/
theorem c4_drag_move_semantics :
    (∀ (s : SelState) (y : Int),
      on_drag ((build_times DEFAULT_STEP_MINUTES).length : Int) s y =
        if y_to_idx ((build_times DEFAULT_STEP_MINUTES).length : Int) y ≤ s.start_idx then
          ⟨max 0 (min (y_to_idx ((build_times DEFAULT_STEP_MINUTES).length : Int) y)
              (((build_times DEFAULT_STEP_MINUTES).length : Int) - 2)),
            max 0 (min (y_to_idx ((build_times DEFAULT_STEP_MINUTES).length : Int) y)
              (((build_times DEFAULT_STEP_MINUTES).length : Int) - 2)) + 1⟩
        else ⟨s.start_idx, y_to_idx ((build_times DEFAULT_STEP_MINUTES).length : Int) y⟩) ∧
    on_drag ((build_times DEFAULT_STEP_MINUTES).length : Int)
        (on_press ((build_times DEFAULT_STEP_MINUTES).length : Int) 140) 42 =
      ⟨3, 4⟩ := by
  have hlen : (build_times DEFAULT_STEP_MINUTES).length = 48 := by decide
  constructor
  · intro s y
    exact on_drag_eq (by rw [hlen]; omega) s y
  · rw [hlen]
    decide

/-! ### Professor validation order (C7) -/

/-- Counterexample to C7 as stated: an input violating both the weekday rule
(weekday `"0"`) and the email rule (email `"not-an-email"`) is reported as
an **email** failure, not a weekday failure — `_collect_prof_input` calls
`validate_email` before `validate_weekday`, so the email-shape rule is not
last. -/
theorem c7_counterexample :
    collect_prof_input
        ⟨"Alice", "not-an-email", "Office Hour", "Room 1", "", "0",
          "2024-01-01 09:00", "2024-01-01 10:00"⟩ =
      .error "请输入合法的邮箱地址" ∧
    validate_weekday "0" = .error "Weekday 必须在 1-7 之间" ∧
    emailMatch "not-an-email" = false ∧
    "请输入合法的邮箱地址" ≠ "Weekday 必须在 1-7 之间" := by
  refine ⟨by decide, by decide, by decide, by decide⟩

/-- C7 (amended): the professor validator applies its rules in order,
short-circuiting on the first failure, but the email-shape rule comes
directly after the required-fields rule and **before** the weekday rule:
required fields, then email shape, then weekday in `[1,7]`, then date-time
format, then same-date, then end-after-start; an input violating both the
weekday rule and the email rule is reported as an email failure. -/
theorem c7_validation_order :
    (∀ raw : RawProf, profRequiredOk raw = true →
      emailMatch (pstrip raw.email) = false →
      collect_prof_input raw = .error "请输入合法的邮箱地址") ∧
    (∀ (raw : RawProf) (w : Int), profRequiredOk raw = true →
      emailMatch (pstrip raw.email) = true →
      pyInt (pstrip raw.weekday) = some w → (w < 1 ∨ 7 < w) →
      collect_prof_input raw = .error "Weekday 必须在 1-7 之间") ∧
    (∀ (raw : RawProf) (w : Int), profRequiredOk raw = true →
      emailMatch (pstrip raw.email) = true →
      validate_weekday (pstrip raw.weekday) = .ok w →
      parse_time (pstrip raw.startTime) = none →
      collect_prof_input raw = .error timeFormatError) ∧
    (∀ (raw : RawProf) (w : Int) (sdt edt : PyDateTime), profRequiredOk raw = true →
      emailMatch (pstrip raw.email) = true →
      validate_weekday (pstrip raw.weekday) = .ok w →
      parse_time (pstrip raw.startTime) = some sdt →
      parse_time (pstrip raw.endTime) = some edt →
      sdt.sameDate edt = false →
      collect_prof_input raw = .error "开始时间和结束时间必须在同一天") ∧
    (∀ (raw : RawProf) (w : Int) (sdt edt : PyDateTime), profRequiredOk raw = true →
      emailMatch (pstrip raw.email) = true →
      validate_weekday (pstrip raw.weekday) = .ok w →
      parse_time (pstrip raw.startTime) = some sdt →
      parse_time (pstrip raw.endTime) = some edt →
      sdt.sameDate edt = true → edt.leB sdt = true →
      collect_prof_input raw = .error "结束时间必须大于开始时间") := by
  have req : ∀ raw : RawProf, profRequiredOk raw = true →
      pstrip raw.professorName ≠ "" ∧ pstrip raw.email ≠ "" ∧ pstrip raw.eventName ≠ "" ∧
      pstrip raw.location ≠ "" ∧ pstrip raw.weekday ≠ "" ∧ pstrip raw.startTime ≠ "" ∧
      pstrip raw.endTime ≠ "" := by
    intro raw h
    unfold profRequiredOk at h
    simp only [Bool.and_eq_true, decide_eq_true_eq] at h
    exact ⟨h.1.1.1.1.1.1, h.1.1.1.1.1.2, h.1.1.1.1.2, h.1.1.1.2, h.1.1.2, h.1.2, h.2⟩
  refine ⟨?_, ?_, ?_, ?_, ?_⟩
  · intro raw hreq hmail
    obtain ⟨r1, r2, r3, r4, r5, r6, r7⟩ := req raw hreq
    simp [collect_prof_input, r1, r2, r3, r4, r5, r6, r7, validate_email, hmail]
  · intro raw w hreq hmail hint hrange
    obtain ⟨r1, r2, r3, r4, r5, r6, r7⟩ := req raw hreq
    simp [collect_prof_input, r1, r2, r3, r4, r5, r6, r7, validate_email, hmail,
      validate_weekday, hint, hrange]
  · intro raw w hreq hmail hwk hstart
    obtain ⟨r1, r2, r3, r4, r5, r6, r7⟩ := req raw hreq
    simp [collect_prof_input, r1, r2, r3, r4, r5, r6, r7, validate_email, hmail, hwk, hstart]
  · intro raw w sdt edt hreq hmail hwk hstart hend hsd
    obtain ⟨r1, r2, r3, r4, r5, r6, r7⟩ := req raw hreq
    simp [collect_prof_input, r1, r2, r3, r4, r5, r6, r7, validate_email, hmail, hwk,
      hstart, hend, hsd]
  · intro raw w sdt edt hreq hmail hwk hstart hend hsd hle
    obtain ⟨r1, r2, r3, r4, r5, r6, r7⟩ := req raw hreq
    simp [collect_prof_input, r1, r2, r3, r4, r5, r6, r7, validate_email, hmail, hwk,
      hstart, hend, hsd, hle]

/-- Witness for C7's amended ordering at concrete inputs, including the
input that violates both the weekday and email rules. -/
theorem c7_witness :
    profRequiredOk ⟨"Alice", "not-an-email", "Office Hour", "Room 1", "", "0",
        "2024-01-01 09:00", "2024-01-01 10:00"⟩ = true ∧
    emailMatch (pstrip "not-an-email") = false ∧
    collect_prof_input ⟨"Alice", "not-an-email", "Office Hour", "Room 1", "", "0",
        "2024-01-01 09:00", "2024-01-01 10:00"⟩ = .error "请输入合法的邮箱地址" ∧
    profRequiredOk ⟨"Alice", "a@b.co", "Office Hour", "Room 1", "", "0",
        "2024-01-01 09:00", "2024-01-01 10:00"⟩ = true ∧
    emailMatch (pstrip "a@b.co") = true ∧
    pyInt (pstrip "0") = some 0 ∧
    collect_prof_input ⟨"Alice", "a@b.co", "Office Hour", "Room 1", "", "0",
        "2024-01-01 09:00", "2024-01-01 10:00"⟩ = .error "Weekday 必须在 1-7 之间" := by
  refine ⟨by decide, by decide,
    c7_validation_order.1 _ (by decide) (by decide),
    by decide, by decide, by decide,
    c7_validation_order.2.1 _ 0 (by decide) (by decide) (by decide) (by omega)⟩

/-! ### Strictness of the date-time format (C8) -/

/-- Counterexample to C8 as stated: `strptime` with `%Y-%m-%d %H:%M` also
accepts non-zero-padded month, day, hour and minute, so a StartTime that
does **not** match the strict `YYYY-MM-DD HH:MM` surface pattern is still
accepted (and then normalized): `"2024-1-1 9:5"` parses. -/
theorem c8_counterexample :
    parse_time "2024-1-1 9:5" = some ⟨2024, 1, 1, 9, 5⟩ ∧
    specStrictFormat "2024-1-1 9:5" = false ∧
    collect_student_input ⟨"Math", "R1", "", "3", "2024-1-1 9:5", "2024-01-01 10:00", 1⟩ =
      .ok ⟨"Math", "R1", "", "3", "2024-01-01 09:05", "2024-01-01 10:00", "1"⟩ := by
  refine ⟨by decide, by decide, by decide⟩

theorem specStrict_formatDT {dt : PyDateTime} (h : ValidDT dt) :
    specStrictFormat (formatDT dt) = true := by
  obtain ⟨hy1, hy2, hm1, hm2, hd1, hd2, hh, hmi⟩ := h
  have hd31 : dt.day ≤ 31 := le_trans hd2 (daysInMonth_le_31 _ _)
  have e1 : isDigitCh (digitChar (dt.year / 1000)) = true := isDigitCh_digitChar (by omega)
  have e2 : isDigitCh (digitChar (dt.year / 100 % 10)) = true := isDigitCh_digitChar (by omega)
  have e3 : isDigitCh (digitChar (dt.year / 10 % 10)) = true := isDigitCh_digitChar (by omega)
  have e4 : isDigitCh (digitChar (dt.year % 10)) = true := isDigitCh_digitChar (by omega)
  have e5 : isDigitCh (digitChar (dt.month / 10)) = true := isDigitCh_digitChar (by omega)
  have e6 : isDigitCh (digitChar (dt.month % 10)) = true := isDigitCh_digitChar (by omega)
  have e7 : isDigitCh (digitChar (dt.day / 10)) = true := isDigitCh_digitChar (by omega)
  have e8 : isDigitCh (digitChar (dt.day % 10)) = true := isDigitCh_digitChar (by omega)
  have e9 : isDigitCh (digitChar (dt.hour / 10)) = true := isDigitCh_digitChar (by omega)
  have e10 : isDigitCh (digitChar (dt.hour % 10)) = true := isDigitCh_digitChar (by omega)
  have e11 : isDigitCh (digitChar (dt.minute / 10)) = true := isDigitCh_digitChar (by omega)
  have e12 : isDigitCh (digitChar (dt.minute % 10)) = true := isDigitCh_digitChar (by omega)
  simp [specStrictFormat, formatDT, pad4, pad2,
    e1, e2, e3, e4, e5, e6, e7, e8, e9, e10, e11, e12]

/-- C8 (amended): validation accepts StartTime/EndTime through Python's
`strptime("%Y-%m-%d %H:%M")`, which accepts every strictly formatted
(zero-padded, single-space) string denoting a valid calendar date-time —
but also accepts variants whose month, day, hour or minute are not
zero-padded, and variants whose date/clock separator is any non-empty run
of whitespace (`strptime` compiles format whitespace to `\s+`); the `-` and
`:` separators are exact, and out-of-range components, invalid calendar
days, a missing separator and trailing text are rejected. The accepted
value is always re-serialized to the strict format. -/
theorem c8_time_format :
    (∀ dt : PyDateTime, ValidDT dt →
      parse_time (formatDT dt) = some dt ∧ specStrictFormat (formatDT dt) = true) ∧
    parse_time "2024-1-1 9:5" = some ⟨2024, 1, 1, 9, 5⟩ ∧
    specStrictFormat "2024-1-1 9:5" = false ∧
    parse_time "2024-01-01\t09:00" = some ⟨2024, 1, 1, 9, 0⟩ ∧
    parse_time "2024-01-01  09:00" = some ⟨2024, 1, 1, 9, 0⟩ ∧
    specStrictFormat "2024-01-01\t09:00" = false ∧
    parse_time "2024-13-01 09:00" = none ∧
    parse_time "2024-02-30 09:00" = none ∧
    parse_time "2024-01-0109:00" = none ∧
    parse_time "2024/01/01 09:00" = none ∧
    parse_time "2024-01-01 09:00:00" = none := by
  refine ⟨fun dt h => ⟨parse_time_formatDT h, specStrict_formatDT h⟩,
    by decide, by decide, by decide, by decide, by decide, by decide, by decide,
    by decide, by decide, by decide⟩

/-- Witness for C8 (amended) at a concrete valid date-time. -/
theorem c8_witness :
    ValidDT ⟨2024, 2, 29, 23, 59⟩ ∧
    parse_time (formatDT ⟨2024, 2, 29, 23, 59⟩) = some ⟨2024, 2, 29, 23, 59⟩ ∧
    specStrictFormat (formatDT ⟨2024, 2, 29, 23, 59⟩) = true := by
  have h := c8_time_format.1 ⟨2024, 2, 29, 23, 59⟩ (by decide)
  exact ⟨by decide, h.1, h.2⟩

/-! ### Picker initial indices (C9) -/

/-- Counterexample to C9 as stated: with previous entries
`"2024-01-01 10:00"` / `"2024-01-01 09:00"` (both parse, shared date), the
claim's "nearest slot index" for the end clock `09:00` is 18 (the exact
slot), but the dialog computes `end_idx = max(start_idx + 1, 18) = 21` —
the end index is not the nearest slot to the end clock. -/
theorem c9_counterexample :
    open_picker_indices "2024-01-01 10:00" "2024-01-01 09:00" = (20, 21) ∧
    (build_times DEFAULT_STEP_MINUTES).indexOf "09:00" = 18 ∧
    (build_times DEFAULT_STEP_MINUTES)[18]? = some "09:00" ∧ (21 : Nat) ≠ 18 := by
  refine ⟨by decide, by decide, by decide, by decide⟩

/-- C9 (amended): the picker's initial indices come from **exact**
slot-label lookups of the previously entered clocks, with the end index
forced above the start index: if both date-times parse, the base date is
the (shared) date of the first one, the start index is the exact index of
the start clock label when it is on the grid, and the end index is
`max(startIndex+1, exact index of the end clock)`; whenever parsing fails
or a clock is not a slot label the corresponding index falls back to 0
(start) and 1 (end). -/
theorem c9_picker_init :
    (∀ (today s e : String) (dt1 dt2 : PyDateTime),
      parse_time s = some dt1 → parse_time e = some dt2 →
      detect_base_date today [s, e] = formatDate dt1) ∧
    (∀ (s e : String) (dt1 dt2 : PyDateTime),
      parse_time s = some dt1 → parse_time e = some dt2 →
      (build_times DEFAULT_STEP_MINUTES).contains (formatClock dt1) = true →
      (build_times DEFAULT_STEP_MINUTES).contains (formatClock dt2) = true →
      (build_times DEFAULT_STEP_MINUTES).indexOf (formatClock dt1) <
        (build_times DEFAULT_STEP_MINUTES).indexOf (formatClock dt2) →
      open_picker_indices s e =
        ((build_times DEFAULT_STEP_MINUTES).indexOf (formatClock dt1),
          (build_times DEFAULT_STEP_MINUTES).indexOf (formatClock dt2))) ∧
    open_picker_indices "" "" = (0, 1) := by
  refine ⟨?_, ?_, by decide⟩
  · intro today s e dt1 dt2 h1 h2
    simp [detect_base_date, h1]
  · intro s e dt1 dt2 h1 h2 hc1 hc2 hlt
    have hm1 : formatClock dt1 ∈ build_times DEFAULT_STEP_MINUTES := by simpa using hc1
    have hm2 : formatClock dt2 ∈ build_times DEFAULT_STEP_MINUTES := by simpa using hc2
    unfold open_picker_indices initIndices extract_clock
    rw [h1, h2]
    simp only [Option.map_some']
    simp [hm1, hm2, max_eq_right (by omega : (build_times DEFAULT_STEP_MINUTES).indexOf
      (formatClock dt1) + 1 ≤ (build_times DEFAULT_STEP_MINUTES).indexOf (formatClock dt2))]

/-- Witness for C9 (amended) at concrete on-grid entries and the fallback. -/
theorem c9_witness :
    parse_time "2024-01-01 09:00" = some ⟨2024, 1, 1, 9, 0⟩ ∧
    parse_time "2024-01-01 10:30" = some ⟨2024, 1, 1, 10, 30⟩ ∧
    detect_base_date "2030-12-31" ["2024-01-01 09:00", "2024-01-01 10:30"] = "2024-01-01" ∧
    open_picker_indices "2024-01-01 09:00" "2024-01-01 10:30" = (18, 21) := by
  have h1 : parse_time "2024-01-01 09:00" = some ⟨2024, 1, 1, 9, 0⟩ := by decide
  have h2 : parse_time "2024-01-01 10:30" = some ⟨2024, 1, 1, 10, 30⟩ := by decide
  have hbase := c9_picker_init.1 "2030-12-31" _ _ _ _ h1 h2
  have hidx := c9_picker_init.2.1 _ _ _ _ h1 h2 (by decide) (by decide) (by decide)
  refine ⟨h1, h2, ?_, ?_⟩
  · rw [hbase]
    decide
  · rw [hidx]
    decide

end CsvGen
